import Mathlib

/-!
Verification of the grpc-chat broadcast server (`src/app/server.py`).

The server keeps a registry `clients : dict[str, {queue, emoji}]` mapping
display names to per-client outbound mailboxes, fans messages out with an
optional excluded name, dispatches `!`-commands, and tears a session down
when its inbound stream ends.  We embed the registry as an association
list with Python-dict semantics (insertion order, overwrite-in-place),
mailboxes as lists of messages indexed by a queue identity `hid`, and the
per-connection read loop `read_incoming` as a step function over frames.
Command producers read the ambient clock / RNG, so a command invocation's
outcome is passed in as an oracle `prod : String → Except String String`
(`.ok` = the produced string, `.error` = the exception message it raised).
-/

/-- Wire message, mirroring `pb2.ChatMessage(username=, text=, emoji=)`. -/
structure ChatMessage where
  username : String
  text : String
  emoji : String
deriving DecidableEq, Repr

/-- Inbound frame, mirroring the fields of a request read by `read_incoming`. -/
structure ChatRequest where
  username : String
  text : String
  emoji : String
deriving DecidableEq, Repr

/-- Registry entry for one client: the identity `hid` of its outbound queue
object plus the emoji stored at registration
(`self.clients[username] = {"queue": outgoing_queue, "emoji": emoji}`). -/
structure ClientHandle where
  hid : Nat
  emoji : String
deriving DecidableEq, Repr

/-- The registry `self.clients`: an insertion-ordered association list from
display name to handle, with Python-dict update semantics. -/
abbrev Registry := List (String × ClientHandle)

/-- Python `d[k] = v`: overwrite in place if the key is present (keeping its
position), otherwise append at the end. -/
def dictSet (m : Registry) (k : String) (v : ClientHandle) : Registry :=
  if m.any (fun p => p.1 == k) then
    m.map (fun p => if p.1 == k then (k, v) else p)
  else
    m ++ [(k, v)]

/-- Python `d.pop(k, None)`: remove the key if present, no error if absent. -/
def dictPop (m : Registry) (k : String) : Registry :=
  m.filter (fun p => p.1 != k)

/-- Server state: registry plus the contents of every outbound queue,
indexed by queue identity. -/
structure ServerState where
  clients : Registry
  mailboxes : Nat → List ChatMessage

/-- Python `str.strip()`: drop whitespace from both ends. -/
def pyStrip (s : String) : String :=
  String.mk (((s.data.dropWhile Char.isWhitespace).reverse.dropWhile Char.isWhitespace).reverse)

/-- Python `str.split()` with no argument: split on runs of whitespace,
discarding empty pieces. -/
def pyWordsAux : List Char → List Char → List String
  | [], acc => if acc.isEmpty then [] else [String.mk acc.reverse]
  | c :: cs, acc =>
    if c.isWhitespace then
      if acc.isEmpty then pyWordsAux cs [] else String.mk acc.reverse :: pyWordsAux cs []
    else
      pyWordsAux cs (c :: acc)

/-- Python `str.split()` on a string. -/
def pySplitWs (s : String) : List String := pyWordsAux s.data []

/-- Python `str.lower()` on one character, for the alphabets the program
uses: ASCII plus the Cyrillic block А-Я and Ё. -/
def pyCharLower (c : Char) : Char :=
  if 0x410 ≤ c.toNat ∧ c.toNat ≤ 0x42F then Char.ofNat (c.toNat + 0x20)
  else if c.toNat = 0x401 then Char.ofNat 0x451
  else c.toLower

/-- Python `str.lower()` (per-character lowercasing). -/
def pyLower (s : String) : String := String.mk (s.data.map pyCharLower)

/-- Python `text.startswith('!')`. -/
def pyStartsWithBang (s : String) : Bool :=
  match s.data with
  | [] => false
  | c :: _ => c == '!'

/-- The guard `if exclude and user_name == exclude` of `_broadcast`:
a recipient is skipped iff `exclude` is truthy (present and non-empty)
and the names are equal. -/
def isExcluded (exclude : Option String) (name : String) : Bool :=
  match exclude with
  | none => false
  | some e => (e != "") && (name == e)

/-- Enqueue one message into the queue with identity `i`
(`data["queue"].put(msg)`; `Queue.put` on an unbounded queue succeeds). -/
def mboxPut (mbs : Nat → List ChatMessage) (i : Nat) (msg : ChatMessage) :
    Nat → List ChatMessage :=
  fun j => if j = i then mbs j ++ [msg] else mbs j

/-- The delivery loop of `_broadcast`: iterate the registry in order and
enqueue the message into every non-excluded client's queue. -/
def deliverAll (cs : Registry) (exclude : Option String) (msg : ChatMessage)
    (mbs : Nat → List ChatMessage) : Nat → List ChatMessage :=
  cs.foldl (fun m p => if isExcluded exclude p.1 then m else mboxPut m p.2.hid msg) mbs

/-- `ChatService._broadcast(sender, text, exclude, emoji)`: build one
message and enqueue it into every registered mailbox whose name is not the
excluded one. -/
def broadcast (s : ServerState) (sender text : String) (exclude : Option String)
    (emoji : String) : ServerState :=
  { s with mailboxes := deliverAll s.clients exclude ⟨sender, text, emoji⟩ s.mailboxes }

/-- The keys of the `SERVER_COMMANDS` dict. -/
def SERVER_COMMANDS_keys : List String :=
  ["!время", "!дата", "!часы", "!рандом", "!монетка", "!кубик", "!помощь", "!цвет", "!факт"]

/-- `text.lower().split()[0]`: the lowercased first whitespace-delimited
token (the dispatch key of `_handle_command`). -/
def firstToken (text : String) : String :=
  (pySplitWs (pyLower text)).headD ""

/-- `ChatService._handle_command(text, username)`: dispatch on the
lowercased first token; a known command's output is broadcast to everyone
(no exclusion) prefixed with `"{username}: {text}\n"`; a producer that
raises is converted to an error notice broadcast to everyone; an unknown
command yields a hint broadcast to everyone except the sender. -/
def handleCommand (prod : String → Except String String) (s : ServerState)
    (text username : String) : ServerState :=
  let command := firstToken text
  if SERVER_COMMANDS_keys.contains command then
    match prod command with
    | Except.ok result =>
        broadcast s "SERVER" (username ++ ": " ++ text ++ "\n" ++ result) none ""
    | Except.error e =>
        broadcast s "SERVER" ("⚠️ Ошибка команды: " ++ e) none ""
  else
    broadcast s "SERVER" ("❓ Неизвестная команда \x27" ++ command ++ "\x27. Введите !помощь")
      (some username) ""

/-- Session-local state of one connection: the `username` variable of
`ChatStream` (`none` until the first frame) and the `emoji` variable. -/
structure SessionState where
  username : Option String
  emoji : String
deriving DecidableEq, Repr

/-- The initial session state (`username = None`, `emoji = "😀"`). -/
def initSession : SessionState := ⟨none, "😀"⟩

/-- Python truthiness test `not username` on the session's username:
true for `None` and for the empty string. -/
def pyFalsyName : Option String → Bool
  | none => true
  | some s => s == ""

/-- The generated fallback display name `f"User_{id(context) % 1000}"`,
as a function of the connection's context identity. -/
def fallbackName (ctxId : Nat) : String := "User_" ++ Nat.repr (ctxId % 1000)

/-- `self.clients[username] = {...}` (registration, lines 68-69). -/
def registerClient (s : ServerState) (name : String) (h : ClientHandle) : ServerState :=
  { s with clients := dictSet s.clients name h }

/-- `self.clients.pop(username, None)` (teardown, lines 90-91). -/
def unregisterClient (s : ServerState) (name : String) : ServerState :=
  { s with clients := dictPop s.clients name }

/-- One iteration of the `for request in request_iterator` loop of
`read_incoming`: the first frame registers (whatever its text), any later
frame is chat text or a command.  `ctxId` is the connection's context
identity, `hid` the identity of its outbound queue. -/
def stepFrame (ctxId : Nat) (prod : String → Except String String) (hid : Nat)
    (sess : SessionState) (s : ServerState) (req : ChatRequest) :
    SessionState × ServerState :=
  if pyFalsyName sess.username then
    let name := if pyStrip req.username == "" then fallbackName ctxId else pyStrip req.username
    let em := if req.emoji != "" then pyStrip req.emoji else "😀"
    let s1 := registerClient s name ⟨hid, em⟩
    let s2 := broadcast s1 "SERVER" (name ++ " " ++ em ++ " зашел в чат") (some name) ""
    (⟨some name, em⟩, s2)
  else
    let u := sess.username.getD ""
    let text := pyStrip req.text
    if pyStartsWithBang text then
      (sess, handleCommand prod s text u)
    else
      (sess, broadcast s u text (some u) sess.emoji)

/-- The `finally` block of `read_incoming` (lines 86-91): if a username was
set, broadcast the leave notice (excluding the leaver) and then pop the
registry entry; otherwise do nothing. -/
def teardown (sess : SessionState) (s : ServerState) : ServerState :=
  if pyFalsyName sess.username then s
  else
    let name := sess.username.getD ""
    let s1 := broadcast s "SERVER" (name ++ " " ++ sess.emoji ++ " покинул чат") (some name) ""
    unregisterClient s1 name

/-- Run the read loop over a list of inbound frames. -/
def runFrames (ctxId : Nat) (prod : String → Except String String) (hid : Nat)
    (sess : SessionState) (s : ServerState) (frames : List ChatRequest) :
    SessionState × ServerState :=
  frames.foldl (fun st req => stepFrame ctxId prod hid st.1 st.2 req) (sess, s)

/-- A whole session: read every inbound frame, then run the `finally`
teardown when the stream ends. -/
def runSession (ctxId : Nat) (prod : String → Except String String) (hid : Nat)
    (s : ServerState) (frames : List ChatRequest) : ServerState :=
  let st := runFrames ctxId prod hid initSession s frames
  teardown st.1 st.2

/-- Registry/broadcast operations a session's two workers can perform while
cleaning up. -/
inductive SessionOp where
  | broadcastLeave (name : String)
  | unregister (name : String)
  | joinReader
deriving DecidableEq, Repr

/-- The registry/broadcast operations of the read worker's `finally` block,
in source order (broadcast the leave notice, then pop the entry). -/
def readCleanupTrace (sess : SessionState) : List SessionOp :=
  if pyFalsyName sess.username then []
  else
    let name := sess.username.getD ""
    [SessionOp.broadcastLeave name, SessionOp.unregister name]

/-- The registry/broadcast operations of the write worker's `finally` block
(lines 105-106): it only joins the reader thread; it performs no teardown. -/
def writeCleanupTrace : List SessionOp := [SessionOp.joinReader]

/-- Is the op a leave broadcast? -/
def isLeaveOp : SessionOp → Bool
  | SessionOp.broadcastLeave _ => true
  | _ => false

/-- Is the op a registry removal? -/
def isUnregisterOp : SessionOp → Bool
  | SessionOp.unregister _ => true
  | _ => false

/-- An arbitrary concurrent interleaving of two workers' op sequences. -/
inductive Interleaving : List SessionOp → List SessionOp → List SessionOp → Prop
  | nil : Interleaving [] [] []
  | left {x xs ys zs} : Interleaving xs ys zs → Interleaving (x :: xs) ys (x :: zs)
  | right {y xs ys zs} : Interleaving xs ys zs → Interleaving xs (y :: ys) (y :: zs)

/-- Reachable-state invariant of the server: registered names are unique
(dict keys), queue identities are distinct (each connection owns its own
queue object), and registered names are non-empty (registration always
stores a non-empty name). -/
def WellFormed (s : ServerState) : Prop :=
  (s.clients.map Prod.fst).Nodup ∧
  (s.clients.map (fun p => p.2.hid)).Nodup ∧
  ∀ p ∈ s.clients, p.1 ≠ ""

instance (s : ServerState) : Decidable (WellFormed s) :=
  inferInstanceAs (Decidable (_ ∧ _ ∧ _))

/-- Example two-client state used to instantiate the theorems on concrete
inputs: Alice owns queue 0, Bob owns queue 1, both mailboxes empty. -/
def exState : ServerState :=
  ⟨[("Alice", ⟨0, "🙂"⟩), ("Bob", ⟨1, "🐱"⟩)], fun _ => []⟩

/-- Example one-client state: only Bob, owning queue 0. -/
def exState1 : ServerState := ⟨[("Bob", ⟨0, "🐱"⟩)], fun _ => []⟩

/-- Decimal read-back of a digit string: a left inverse of `Nat.repr` on the
range `fallbackName` draws from. -/
def parseDecimal (s : String) : Nat :=
  s.data.foldl (fun acc c => acc * 10 + (c.toNat - 48)) 0

/-- The registry entries whose mailbox is the queue `i` and which are not
skipped by the exclusion guard: the recipients of a broadcast, seen from
queue `i`. -/
def recips (cs : Registry) (exclude : Option String) (i : Nat) : Registry :=
  cs.filter (fun p => !isExcluded exclude p.1 && p.2.hid == i)

theorem recips_eq_nil_of_not_mem (exclude : Option String) (i : Nat) :
    ∀ cs : Registry, i ∉ cs.map (fun p => p.2.hid) → recips cs exclude i = [] := by
  intro cs
  induction cs with
  | nil => intro _; rfl
  | cons p cs ih =>
    intro hi
    simp only [List.map_cons, List.mem_cons, not_or] at hi
    have hne : (p.2.hid == i) = false := by
      simp only [beq_eq_false_iff_ne, ne_eq]
      exact fun hc => hi.1 hc.symm
    have htl : recips cs exclude i = [] := ih hi.2
    simp only [recips] at htl ⊢
    rw [List.filter_cons, if_neg, htl]
    simp [hne]

theorem recips_eq_of_mem (exclude : Option String) (name : String) (h : ClientHandle) :
    ∀ cs : Registry, (cs.map (fun p => p.2.hid)).Nodup → (name, h) ∈ cs →
      recips cs exclude h.hid = if isExcluded exclude name then [] else [(name, h)] := by
  intro cs
  induction cs with
  | nil => intro _ hmem; cases hmem
  | cons q cs ih =>
    intro hnd hmem
    simp only [List.map_cons, List.nodup_cons] at hnd
    rcases List.mem_cons.mp hmem with heq | htail
    · have hq1 := hnd.1
      rw [← heq] at hq1
      have htl : recips cs exclude h.hid = [] :=
        recips_eq_nil_of_not_mem exclude h.hid cs hq1
      simp only [recips] at htl ⊢
      rw [← heq, List.filter_cons]
      cases hex : isExcluded exclude name with
      | false =>
        rw [if_pos, htl]
        · simp [hex]
        · simp [hex]
      | true =>
        rw [if_neg, htl]
        · simp [hex]
        · simp [hex]
    · have hhid : h.hid ∈ cs.map (fun p => p.2.hid) :=
        List.mem_map.mpr ⟨(name, h), htail, rfl⟩
      have hne : (q.2.hid == h.hid) = false := by
        simp only [beq_eq_false_iff_ne, ne_eq]
        intro hq
        exact hnd.1 (hq ▸ hhid)
      have htl := ih hnd.2 htail
      simp only [recips] at htl ⊢
      rw [List.filter_cons, if_neg, htl]
      simp [hne]

theorem deliverAll_apply (exclude : Option String) (msg : ChatMessage) (i : Nat) :
    ∀ (cs : Registry) (mbs : Nat → List ChatMessage),
      deliverAll cs exclude msg mbs i
        = mbs i ++ List.replicate (recips cs exclude i).length msg := by
  intro cs
  induction cs with
  | nil => intro mbs; simp [deliverAll, recips]
  | cons p cs ih =>
    intro mbs
    have hstep : deliverAll (p :: cs) exclude msg mbs
        = deliverAll cs exclude msg
            (if isExcluded exclude p.1 then mbs else mboxPut mbs p.2.hid msg) := by
      cases hex : isExcluded exclude p.1 <;> simp [deliverAll, hex]
    cases hex : isExcluded exclude p.1
    · by_cases hi : p.2.hid = i
      · have h2 : mboxPut mbs p.2.hid msg i = mbs i ++ [msg] := by
          simp [mboxPut, hi]
        have h3 : recips (p :: cs) exclude i = p :: recips cs exclude i := by
          simp [recips, List.filter_cons, hex, hi]
        rw [hstep, if_neg (by simp [hex]), ih, h2, h3]
        simp [List.replicate_succ, List.append_assoc]
      · have h2 : mboxPut mbs p.2.hid msg i = mbs i := by
          simp [mboxPut]
          intro hcontra
          exact absurd hcontra.symm hi
        have h3 : recips (p :: cs) exclude i = recips cs exclude i := by
          simp [recips, List.filter_cons, hex, hi]
        rw [hstep, if_neg (by simp [hex]), ih, h2, h3]
    · have h3 : recips (p :: cs) exclude i = recips cs exclude i := by
        simp [recips, List.filter_cons, hex]
      rw [hstep, if_pos (by simp [hex]), ih, h3]

theorem broadcast_clients (s : ServerState) (sender text : String)
    (exclude : Option String) (emoji : String) :
    (broadcast s sender text exclude emoji).clients = s.clients := rfl

theorem broadcast_mailbox_of_mem (s : ServerState)
    (hnd : (s.clients.map (fun p => p.2.hid)).Nodup)
    (sender text emoji : String) (exclude : Option String)
    (name : String) (h : ClientHandle) (hmem : (name, h) ∈ s.clients) :
    (broadcast s sender text exclude emoji).mailboxes h.hid
      = if isExcluded exclude name then s.mailboxes h.hid
        else s.mailboxes h.hid ++ [ChatMessage.mk sender text emoji] := by
  show deliverAll s.clients exclude ⟨sender, text, emoji⟩ s.mailboxes h.hid = _
  rw [deliverAll_apply, recips_eq_of_mem exclude name h s.clients hnd hmem]
  cases hex : isExcluded exclude name <;> simp [hex]

theorem broadcast_mailbox_of_not_mem (s : ServerState)
    (sender text emoji : String) (exclude : Option String)
    (i : Nat) (hi : i ∉ s.clients.map (fun p => p.2.hid)) :
    (broadcast s sender text exclude emoji).mailboxes i = s.mailboxes i := by
  show deliverAll s.clients exclude ⟨sender, text, emoji⟩ s.mailboxes i = _
  rw [deliverAll_apply, recips_eq_nil_of_not_mem exclude i s.clients hi]
  simp

theorem isExcluded_of_ne_empty (exclude : Option String) (name : String) (hne : name ≠ "") :
    isExcluded exclude name
      = match exclude with
        | some x => name == x
        | none => false := by
  cases exclude with
  | none => rfl
  | some x =>
    by_cases hx : x = ""
    · subst hx
      simp [isExcluded, hne]
    · simp [isExcluded, hx]

theorem dictPop_not_mem_keys (m : Registry) (k : String) :
    k ∉ (dictPop m k).map Prod.fst := by
  intro hk
  rcases List.mem_map.mp hk with ⟨p, hp, hpk⟩
  have hf := List.of_mem_filter hp
  rw [hpk] at hf
  simp at hf

theorem dictPop_mem_of_mem (m : Registry) (k : String) (p : String × ClientHandle)
    (hp : p ∈ m) (hne : p.1 ≠ k) : p ∈ dictPop m k :=
  List.mem_filter.mpr ⟨hp, by simp [hne]⟩

theorem dictPop_idem (m : Registry) (k : String) :
    dictPop (dictPop m k) k = dictPop m k := by
  apply List.filter_eq_self.mpr
  intro p hp
  simp only [dictPop] at hp
  exact (List.mem_filter.mp hp).2

theorem dictPop_of_not_mem (m : Registry) (k : String) (hk : k ∉ m.map Prod.fst) :
    dictPop m k = m := by
  apply List.filter_eq_self.mpr
  intro p hp
  simp only [bne_iff_ne, ne_eq]
  intro hc
  exact hk (List.mem_map.mpr ⟨p, hp, hc⟩)

theorem dictSet_eq_map_of_mem (m : Registry) (k : String) (v h0 : ClientHandle)
    (hm : (k, h0) ∈ m) :
    dictSet m k v = m.map (fun p => if p.1 == k then (k, v) else p) := by
  simp only [dictSet]
  rw [if_pos (List.any_eq_true.mpr ⟨(k, h0), hm, by simp⟩)]

theorem dictSet_mem (m : Registry) (k : String) (v h0 : ClientHandle) (hm : (k, h0) ∈ m) :
    (k, v) ∈ dictSet m k v := by
  rw [dictSet_eq_map_of_mem m k v h0 hm]
  exact List.mem_map.mpr ⟨(k, h0), hm, by simp⟩

theorem dictSet_unique (m : Registry) (k : String) (v h : ClientHandle)
    (hmem : (k, h) ∈ dictSet m k v) : h = v := by
  simp only [dictSet] at hmem
  by_cases hc : m.any (fun p => p.1 == k) = true
  · rw [if_pos hc] at hmem
    rcases List.mem_map.mp hmem with ⟨p, _, hpe⟩
    by_cases hpk : (p.1 == k) = true
    · rw [if_pos hpk] at hpe
      simpa using hpe.symm
    · rw [if_neg hpk] at hpe
      rw [hpe] at hpk
      simp at hpk
  · rw [if_neg hc] at hmem
    rcases List.mem_append.mp hmem with hin | hone
    · exfalso
      apply hc
      exact List.any_eq_true.mpr ⟨(k, h), hin, beq_self_eq_true k⟩
    · have hpe := List.mem_singleton.mp hone
      simpa using hpe

theorem dictSet_keys_of_mem (m : Registry) (k : String) (v h0 : ClientHandle)
    (hm : (k, h0) ∈ m) :
    (dictSet m k v).map Prod.fst = m.map Prod.fst := by
  rw [dictSet_eq_map_of_mem m k v h0 hm, List.map_map]
  apply List.map_congr_left
  intro p _
  by_cases hpk : (p.1 == k) = true
  · have hp1 : p.1 = k := by simpa using hpk
    simp [Function.comp_apply, hpk, hp1]
  · simp only [Function.comp_apply, hpk]
    simp

theorem dictSet_hid_cases (m : Registry) (k : String) (v : ClientHandle)
    (x : Nat) (hx : x ∈ (m.map fun p => if p.1 == k then (k, v) else p).map (fun p => p.2.hid)) :
    x = v.hid ∨ x ∈ m.map (fun p => p.2.hid) := by
  rw [List.map_map] at hx
  rcases List.mem_map.mp hx with ⟨p, hp, hpe⟩
  by_cases hpk : (p.1 == k) = true
  · left
    rw [← hpe]
    simp [Function.comp, hpk]
  · right
    refine List.mem_map.mpr ⟨p, hp, ?_⟩
    rw [← hpe]
    simp [Function.comp, hpk]

theorem dictSet_hids_nodup (k : String) (v : ClientHandle) :
    ∀ m : Registry, (m.map Prod.fst).Nodup → ((m.map fun p => p.2.hid)).Nodup →
      v.hid ∉ m.map (fun p => p.2.hid) →
      (((m.map fun p => if p.1 == k then (k, v) else p)).map (fun p => p.2.hid)).Nodup := by
  intro m
  induction m with
  | nil => intro _ _ _; simp
  | cons q m ih =>
    intro hkeys hhids hfresh
    simp only [List.map_cons, List.nodup_cons] at hkeys hhids ⊢
    simp only [List.map_cons, List.mem_cons, not_or] at hfresh
    by_cases hqk : (q.1 == k) = true
    · have hknotin : ∀ p ∈ m, (p.1 == k) = false := by
        intro p hp
        simp only [beq_eq_false_iff_ne, ne_eq]
        intro hc
        apply hkeys.1
        rw [← (by simpa using hqk : q.1 = k)] at hc
        exact List.mem_map.mpr ⟨p, hp, hc⟩
      have hmapid : (m.map fun p => if p.1 == k then (k, v) else p) = m := by
        have hcongr : (m.map fun p => if p.1 == k then (k, v) else p) = m.map id :=
          List.map_congr_left (fun p hp => by simp [hknotin p hp])
        rw [hcongr, List.map_id]
      rw [hmapid]
      constructor
      · have : (if q.1 == k then (k, v) else q).2.hid = v.hid := by simp [hqk]
        rw [this]
        exact hfresh.2
      · exact hhids.2
    · constructor
      · have hhead : (if q.1 == k then (k, v) else q).2.hid = q.2.hid := by simp [hqk]
        rw [hhead]
        intro hin
        rcases dictSet_hid_cases m k v q.2.hid hin with hv | hold
        · exact hfresh.1 hv.symm
        · exact hhids.1 hold
      · exact ih hkeys.2 hhids.2 hfresh.2

theorem dictSet_old_hid_not_mem (m : Registry) (k : String) (v h0 : ClientHandle)
    (hm : (k, h0) ∈ m) (hhids : (m.map fun p => p.2.hid).Nodup) (hne : v.hid ≠ h0.hid) :
    h0.hid ∉ (dictSet m k v).map (fun p => p.2.hid) := by
  rw [dictSet_eq_map_of_mem m k v h0 hm]
  intro hin
  rw [List.map_map] at hin
  rcases List.mem_map.mp hin with ⟨p, hp, hpe⟩
  by_cases hpk : (p.1 == k) = true
  · apply hne
    rw [← hpe]
    simp [Function.comp, hpk]
  · have hph : p.2.hid = h0.hid := by
      rw [← hpe]
      simp [Function.comp, hpk]
    have hpeq : p = (k, h0) := List.inj_on_of_nodup_map hhids hp hm hph
    rw [hpeq] at hpk
    simp at hpk

theorem handleCommand_clients (prod : String → Except String String) (s : ServerState)
    (text username : String) :
    (handleCommand prod s text username).clients = s.clients := by
  unfold handleCommand
  by_cases hc : SERVER_COMMANDS_keys.contains (firstToken text) = true
  · rw [if_pos hc]
    cases prod (firstToken text) <;> rfl
  · rw [if_neg hc]
    rfl

theorem stepFrame_registered (ctxId : Nat) (prod : String → Except String String)
    (hid : Nat) (sess : SessionState) (s : ServerState) (req : ChatRequest)
    (u : String) (hsess : sess.username = some u) (hu : u ≠ "") :
    stepFrame ctxId prod hid sess s req
      = (sess,
         if pyStartsWithBang (pyStrip req.text) then handleCommand prod s (pyStrip req.text) u
         else broadcast s u (pyStrip req.text) (some u) sess.emoji) := by
  have hf : pyFalsyName (some u) = false := by
    simp [pyFalsyName, hu]
  simp only [stepFrame, hsess, Option.getD_some, hf, Bool.false_eq_true, if_false]
  split <;> rfl

theorem countP_interleaving (p : SessionOp → Bool) {xs ys zs : List SessionOp}
    (h : Interleaving xs ys zs) :
    zs.countP p = xs.countP p + ys.countP p := by
  induction h with
  | nil => rfl
  | left _ ih =>
    simp only [List.countP_cons, ih]
    omega
  | right _ ih =>
    simp only [List.countP_cons, ih]
    omega

theorem teardown_registered (sess : SessionState) (s : ServerState) (name : String)
    (hsess : sess.username = some name) (hne : name ≠ "") :
    teardown sess s
      = unregisterClient
          (broadcast s "SERVER" (name ++ " " ++ sess.emoji ++ " покинул чат") (some name) "")
          name := by
  have hf : pyFalsyName (some name) = false := by
    simp [pyFalsyName, hne]
  simp only [teardown, hsess, hf, Bool.false_eq_true, if_false, Option.getD_some]

/-- C1: for every registry state and every broadcast call, the constructed
message is enqueued into exactly the mailboxes of the registered clients
whose name differs from the exclusion (the excluded registered client's
mailbox is untouched, as is every queue not belonging to a registered
client), and when a registered client sends a plain non-command message the
sender's own mailbox never receives it. -/
theorem C1_broadcast_exact_delivery (s : ServerState) (hwf : WellFormed s)
    (sender text emoji : String) (exclude : Option String) :
    (∀ name h, (name, h) ∈ s.clients →
        (broadcast s sender text exclude emoji).mailboxes h.hid
          = (match exclude with
             | some x =>
                 if name = x then s.mailboxes h.hid
                 else s.mailboxes h.hid ++ [ChatMessage.mk sender text emoji]
             | none => s.mailboxes h.hid ++ [ChatMessage.mk sender text emoji]))
    ∧ (∀ i, i ∉ s.clients.map (fun p => p.2.hid) →
        (broadcast s sender text exclude emoji).mailboxes i = s.mailboxes i)
    ∧ (∀ ctxId prod hid sess u h req,
        sess.username = some u →
        (u, h) ∈ s.clients →
        pyStartsWithBang (pyStrip req.text) = false →
        (stepFrame ctxId prod hid sess s req).2.mailboxes h.hid = s.mailboxes h.hid) := by
  obtain ⟨hkeys, hhids, hnames⟩ := hwf
  refine ⟨?_, ?_, ?_⟩
  · intro name h hmem
    rw [broadcast_mailbox_of_mem s hhids sender text emoji exclude name h hmem]
    rw [isExcluded_of_ne_empty exclude name (hnames (name, h) hmem)]
    cases exclude with
    | none => simp
    | some x =>
      by_cases hx : name = x
      · simp [hx]
      · simp [hx]
  · intro i hi
    exact broadcast_mailbox_of_not_mem s sender text emoji exclude i hi
  · intro ctxId prod hid sess u h req hsess hmem hplain
    have hu : u ≠ "" := hnames (u, h) hmem
    rw [stepFrame_registered ctxId prod hid sess s req u hsess hu]
    simp only [hplain, Bool.false_eq_true, if_false]
    rw [broadcast_mailbox_of_mem s hhids u (pyStrip req.text) sess.emoji (some u) u h hmem]
    have hex : isExcluded (some u) u = true := by
      simp [isExcluded, hu]
    rw [hex]
    simp

theorem C1_broadcast_exact_delivery_witness :
    (broadcast exState "Alice" "hi" (some "Alice") "🙂").mailboxes 1
        = [ChatMessage.mk "Alice" "hi" "🙂"]
    ∧ (broadcast exState "Alice" "hi" (some "Alice") "🙂").mailboxes 0 = [] := by
  have h := C1_broadcast_exact_delivery exState (by decide) "Alice" "hi" "🙂" (some "Alice")
  constructor
  · have hb := h.1 "Bob" ⟨1, "🐱"⟩ (by decide)
    simpa [exState] using hb
  · have ha := h.1 "Alice" ⟨0, "🙂"⟩ (by decide)
    simpa [exState] using ha

/-- C6: unregister is idempotent: removing a name twice leaves the registry
as after a single removal, and removing an absent name leaves the state
unchanged (the `pop(name, None)` raises no error: it is a total function). -/
theorem C6_unregister_idempotent (s : ServerState) (name : String) :
    unregisterClient (unregisterClient s name) name = unregisterClient s name
    ∧ (name ∉ s.clients.map Prod.fst → unregisterClient s name = s) := by
  constructor
  · have h := dictPop_idem s.clients name
    simp only [unregisterClient, h]
  · intro hk
    have h := dictPop_of_not_mem s.clients name hk
    simp only [unregisterClient, h]

theorem C6_unregister_idempotent_witness :
    unregisterClient (unregisterClient exState "Bob") "Bob" = unregisterClient exState "Bob"
    ∧ unregisterClient exState "Carol" = exState := by
  refine ⟨(C6_unregister_idempotent exState "Bob").1, ?_⟩
  exact (C6_unregister_idempotent exState "Carol").2 (by decide)

/-- C10: a connection whose inbound stream ends before any frame arrived
(username never set) tears down without broadcasting anything and without
touching the registry: the whole session is a no-op on the server state. -/
theorem C10_empty_stream_no_effect (ctxId : Nat) (prod : String → Except String String)
    (hid : Nat) (s : ServerState) :
    runSession ctxId prod hid s [] = s := rfl

/-- C3 counterexample: the claim says teardown FIRST removes the name from
the registry and THEN broadcasts the leave notice; the finally block of
`read_incoming` does the opposite: it broadcasts the leave notice (line 89)
and only then pops the registry entry (lines 90-91).  Concretely, for the
session registered as Bob the teardown operation trace is
broadcast-then-unregister, not unregister-then-broadcast. -/
theorem C3_counterexample :
    readCleanupTrace ⟨some "Bob", "🐱"⟩
        = [SessionOp.broadcastLeave "Bob", SessionOp.unregister "Bob"]
    ∧ readCleanupTrace ⟨some "Bob", "🐱"⟩
        ≠ [SessionOp.unregister "Bob", SessionOp.broadcastLeave "Bob"] := by
  decide

/-- C3 amended: for every registered session whose inbound stream
terminates, teardown broadcasts the SERVER leave notice with the leaver
excluded and THEN removes the name from the registry, each exactly once;
afterwards the name is absent from the registry (so no later broadcast can
see it), every other registered client received exactly one leave notice,
and the departed client's own mailbox received nothing. -/
theorem C3_teardown_amended (s : ServerState) (hwf : WellFormed s)
    (sess : SessionState) (name : String)
    (hsess : sess.username = some name) (hne : name ≠ "") :
    (readCleanupTrace sess = [SessionOp.broadcastLeave name, SessionOp.unregister name])
    ∧ (name ∉ (teardown sess s).clients.map Prod.fst)
    ∧ (∀ p ∈ s.clients, p.1 ≠ name → p ∈ (teardown sess s).clients)
    ∧ (∀ h, (name, h) ∈ s.clients → (teardown sess s).mailboxes h.hid = s.mailboxes h.hid)
    ∧ (∀ n h, (n, h) ∈ s.clients → n ≠ name →
        (teardown sess s).mailboxes h.hid
          = s.mailboxes h.hid
            ++ [ChatMessage.mk "SERVER" (name ++ " " ++ sess.emoji ++ " покинул чат") ""]) := by
  obtain ⟨hkeys, hhids, hnames⟩ := hwf
  rw [teardown_registered sess s name hsess hne]
  refine ⟨?_, ?_, ?_, ?_, ?_⟩
  · simp [readCleanupTrace, hsess, pyFalsyName, hne]
  · show name ∉ (dictPop _ name).map Prod.fst
    exact dictPop_not_mem_keys _ name
  · intro p hp hpne
    show p ∈ dictPop _ name
    exact dictPop_mem_of_mem _ name p hp hpne
  · intro h hmem
    show (broadcast s "SERVER" _ (some name) "").mailboxes h.hid = s.mailboxes h.hid
    rw [broadcast_mailbox_of_mem s hhids _ _ _ (some name) name h hmem]
    have hex : isExcluded (some name) name = true := by
      simp [isExcluded, hne]
    rw [hex]
    simp
  · intro n h hmem hnne
    show (broadcast s "SERVER" _ (some name) "").mailboxes h.hid = _
    rw [broadcast_mailbox_of_mem s hhids _ _ _ (some name) n h hmem]
    have hex : isExcluded (some name) n = false := by
      simp [isExcluded, hnne]
    rw [hex]
    simp

theorem C3_teardown_amended_witness :
    readCleanupTrace ⟨some "Bob", "🐱"⟩
        = [SessionOp.broadcastLeave "Bob", SessionOp.unregister "Bob"]
    ∧ "Bob" ∉ (teardown ⟨some "Bob", "🐱"⟩ exState).clients.map Prod.fst
    ∧ (teardown ⟨some "Bob", "🐱"⟩ exState).mailboxes 0
        = [ChatMessage.mk "SERVER" ("Bob" ++ " " ++ "🐱" ++ " покинул чат") ""]
    ∧ (teardown ⟨some "Bob", "🐱"⟩ exState).mailboxes 1 = [] := by
  have h := C3_teardown_amended exState (by decide) ⟨some "Bob", "🐱"⟩ "Bob" rfl (by decide)
  refine ⟨h.1, h.2.1, ?_, ?_⟩
  · have ha := h.2.2.2.2 "Alice" ⟨0, "🙂"⟩ (by decide) (by decide)
    simpa [exState] using ha
  · have hb := h.2.2.2.1 ⟨1, "🐱"⟩ (by decide)
    simpa [exState] using hb

/-- C5 counterexample: the claim says a frame is the registration frame iff
its text is empty, and that a first frame with non-empty text is handled as
chat.  In the code the registration test is `if not username` — the FIRST
frame registers regardless of its text.  Concretely: the first frame
`{username: "Alice", text: "hello"}` on a fresh session registers Alice
(username set, registry entry created, join notice delivered to Bob) and
the text "hello" is never relayed to anyone. -/
theorem C5_counterexample :
    (stepFrame 7 (fun _ => Except.ok "OUT") 1 initSession exState1
        ⟨"Alice", "hello", ""⟩).1.username = some "Alice"
    ∧ ("Alice", (⟨1, "😀"⟩ : ClientHandle))
        ∈ (stepFrame 7 (fun _ => Except.ok "OUT") 1 initSession exState1
            ⟨"Alice", "hello", ""⟩).2.clients
    ∧ (stepFrame 7 (fun _ => Except.ok "OUT") 1 initSession exState1
        ⟨"Alice", "hello", ""⟩).2.mailboxes 0
        = [ChatMessage.mk "SERVER" "Alice 😀 зашел в чат" ""] := by
  decide

/-- C5 amended: the server treats an inbound frame as the registration
frame iff it is the connection's first frame (the session username is still
falsy), regardless of the frame's text: on a first frame the outcome is the
same for every text and the username becomes the trimmed request username
(or the generated fallback), while on a later frame the session state is
untouched and no registry entry is created or changed. -/
theorem C5_registration_is_first_frame (ctxId : Nat) (prod : String → Except String String)
    (hid : Nat) (sess : SessionState) (s : ServerState) (req : ChatRequest) :
    (pyFalsyName sess.username = true →
        (∀ t, stepFrame ctxId prod hid sess s { req with text := t }
            = stepFrame ctxId prod hid sess s req)
        ∧ (stepFrame ctxId prod hid sess s req).1.username
            = some (if pyStrip req.username == "" then fallbackName ctxId
                    else pyStrip req.username))
    ∧ (pyFalsyName sess.username = false →
        (stepFrame ctxId prod hid sess s req).1 = sess
        ∧ (stepFrame ctxId prod hid sess s req).2.clients = s.clients) := by
  constructor
  · intro hpf
    constructor
    · intro t
      simp [stepFrame, hpf]
    · simp [stepFrame, hpf]
  · intro hpf
    simp only [stepFrame, hpf, Bool.false_eq_true, if_false]
    constructor
    · split <;> rfl
    · split
      · exact handleCommand_clients prod s _ _
      · rfl

theorem C5_registration_is_first_frame_witness :
    stepFrame 7 (fun _ => Except.ok "OUT") 1 initSession exState1 ⟨"Alice", "zzz", ""⟩
        = stepFrame 7 (fun _ => Except.ok "OUT") 1 initSession exState1 ⟨"Alice", "hello", ""⟩
    ∧ (stepFrame 7 (fun _ => Except.ok "OUT") 1 ⟨some "Bob", "🐱"⟩ exState1
        ⟨"Bob", "hello", ""⟩).1 = ⟨some "Bob", "🐱"⟩ := by
  constructor
  · have h := (C5_registration_is_first_frame 7 (fun _ => Except.ok "OUT") 1 initSession
        exState1 ⟨"Alice", "hello", ""⟩).1 (by decide)
    exact h.1 "zzz"
  · exact ((C5_registration_is_first_frame 7 (fun _ => Except.ok "OUT") 1 ⟨some "Bob", "🐱"⟩
        exState1 ⟨"Bob", "hello", ""⟩).2 (by decide)).1

/-- C7: a known command whose producer raises is contained: the exception
is converted to an error notice broadcast to every registered client with
no exclusion (the sender included), the registry is unchanged, and the
session's local state (name, emoji) is exactly what it was. -/
theorem C7_command_error_contained (s : ServerState) (hwf : WellFormed s)
    (prod : String → Except String String) (u text e : String)
    (hkey : SERVER_COMMANDS_keys.contains (firstToken text) = true)
    (herr : prod (firstToken text) = Except.error e) :
    ((handleCommand prod s text u).clients = s.clients)
    ∧ (∀ name h, (name, h) ∈ s.clients →
        (handleCommand prod s text u).mailboxes h.hid
          = s.mailboxes h.hid ++ [ChatMessage.mk "SERVER" ("⚠️ Ошибка команды: " ++ e) ""])
    ∧ (∀ ctxId hid sess req, sess.username = some u → u ≠ "" →
        pyStrip req.text = text →
        (stepFrame ctxId prod hid sess s req).1 = sess) := by
  obtain ⟨hkeys, hhids, hnames⟩ := hwf
  have hunf : handleCommand prod s text u
      = broadcast s "SERVER" ("⚠️ Ошибка команды: " ++ e) none "" := by
    simp only [handleCommand]
    rw [if_pos hkey, herr]
  refine ⟨?_, ?_, ?_⟩
  · rw [hunf]
    rfl
  · intro name h hmem
    rw [hunf, broadcast_mailbox_of_mem s hhids _ _ _ none name h hmem]
    rfl
  · intro ctxId hid sess req hsess hu _
    rw [stepFrame_registered ctxId prod hid sess s req u hsess hu]

theorem C7_command_error_contained_witness :
    (handleCommand (fun _ => Except.error "boom") exState "!помощь" "Alice").clients
        = exState.clients
    ∧ (handleCommand (fun _ => Except.error "boom") exState "!помощь" "Alice").mailboxes 0
        = [ChatMessage.mk "SERVER" ("⚠️ Ошибка команды: " ++ "boom") ""] := by
  have h := C7_command_error_contained exState (by decide) (fun _ => Except.error "boom")
      "Alice" "!помощь" "boom" (by decide) rfl
  refine ⟨h.1, ?_⟩
  have ha := h.2.1 "Alice" ⟨0, "🙂"⟩ (by decide)
  simpa [exState] using ha

/-- C2: a registered client's inbound text starting with the sentinel is
dispatched on the lowercased first whitespace-delimited token; a known
command's producer output, prefixed with the sender and the original
command text, is broadcast to every registered client including the sender
(no exclusion); an unknown token yields an unknown-command notice broadcast
to every registered client except the sender. -/
theorem C2_command_dispatch (s : ServerState) (hwf : WellFormed s)
    (ctxId hid : Nat) (prod : String → Except String String)
    (sess : SessionState) (u : String) (hsess : sess.username = some u) (hu : u ≠ "")
    (req : ChatRequest) (hbang : pyStartsWithBang (pyStrip req.text) = true) :
    ((stepFrame ctxId prod hid sess s req).2 = handleCommand prod s (pyStrip req.text) u)
    ∧ (∀ r, SERVER_COMMANDS_keys.contains (firstToken (pyStrip req.text)) = true →
        prod (firstToken (pyStrip req.text)) = Except.ok r →
        ∀ name h, (name, h) ∈ s.clients →
          (handleCommand prod s (pyStrip req.text) u).mailboxes h.hid
            = s.mailboxes h.hid
              ++ [ChatMessage.mk "SERVER" (u ++ ": " ++ pyStrip req.text ++ "\n" ++ r) ""])
    ∧ (SERVER_COMMANDS_keys.contains (firstToken (pyStrip req.text)) = false →
        (∀ name h, (name, h) ∈ s.clients → name ≠ u →
          (handleCommand prod s (pyStrip req.text) u).mailboxes h.hid
            = s.mailboxes h.hid
              ++ [ChatMessage.mk "SERVER"
                    ("❓ Неизвестная команда \x27" ++ firstToken (pyStrip req.text)
                      ++ "\x27. Введите !помощь") ""])
        ∧ (∀ h, (u, h) ∈ s.clients →
            (handleCommand prod s (pyStrip req.text) u).mailboxes h.hid
              = s.mailboxes h.hid)) := by
  obtain ⟨hkeys, hhids, hnames⟩ := hwf
  refine ⟨?_, ?_, ?_⟩
  · rw [stepFrame_registered ctxId prod hid sess s req u hsess hu]
    simp [hbang]
  · intro r hkey hok name h hmem
    have hunf : handleCommand prod s (pyStrip req.text) u
        = broadcast s "SERVER" (u ++ ": " ++ pyStrip req.text ++ "\n" ++ r) none "" := by
      simp only [handleCommand]
      rw [if_pos hkey, hok]
    rw [hunf, broadcast_mailbox_of_mem s hhids _ _ _ none name h hmem]
    rfl
  · intro hkey
    have hunf : handleCommand prod s (pyStrip req.text) u
        = broadcast s "SERVER"
            ("❓ Неизвестная команда \x27" ++ firstToken (pyStrip req.text)
              ++ "\x27. Введите !помощь") (some u) "" := by
      simp only [handleCommand]
      rw [if_neg (by rw [hkey]; simp)]
    constructor
    · intro name h hmem hne
      rw [hunf, broadcast_mailbox_of_mem s hhids _ _ _ (some u) name h hmem]
      have hex : isExcluded (some u) name = false := by
        simp [isExcluded, hne]
      rw [hex]
      simp
    · intro h hmem
      rw [hunf, broadcast_mailbox_of_mem s hhids _ _ _ (some u) u h hmem]
      have hex : isExcluded (some u) u = true := by
        simp [isExcluded, hu]
      rw [hex]
      simp

theorem C2_command_dispatch_witness :
    (stepFrame 0 (fun _ => Except.ok "OUT") 5 ⟨some "Alice", "🙂"⟩ exState
        ⟨"Alice", "!помощь", "🙂"⟩).2
      = handleCommand (fun _ => Except.ok "OUT") exState (pyStrip "!помощь") "Alice"
    ∧ (handleCommand (fun _ => Except.ok "OUT") exState (pyStrip "!помощь") "Alice").mailboxes 0
      = [ChatMessage.mk "SERVER" ("Alice" ++ ": " ++ pyStrip "!помощь" ++ "\n" ++ "OUT") ""]
    ∧ (handleCommand (fun _ => Except.ok "OUT") exState (pyStrip "!bogus") "Alice").mailboxes 0
      = []
    ∧ (handleCommand (fun _ => Except.ok "OUT") exState (pyStrip "!bogus") "Alice").mailboxes 1
      = [ChatMessage.mk "SERVER"
            ("❓ Неизвестная команда \x27" ++ firstToken (pyStrip "!bogus")
              ++ "\x27. Введите !помощь") ""] := by
  have h1 := C2_command_dispatch exState (by decide) 0 5 (fun _ => Except.ok "OUT")
      ⟨some "Alice", "🙂"⟩ "Alice" rfl (by decide) ⟨"Alice", "!помощь", "🙂"⟩ (by decide)
  have h2 := C2_command_dispatch exState (by decide) 0 5 (fun _ => Except.ok "OUT")
      ⟨some "Alice", "🙂"⟩ "Alice" rfl (by decide) ⟨"Alice", "!bogus", "🙂"⟩ (by decide)
  refine ⟨h1.1, ?_, ?_, ?_⟩
  · have ha := h1.2.1 "OUT" (by decide) rfl "Alice" ⟨0, "🙂"⟩ (by decide)
    simpa [exState] using ha
  · have ha := (h2.2.2 (by decide)).2 ⟨0, "🙂"⟩ (by decide)
    simpa [exState] using ha
  · have hb := (h2.2.2 (by decide)).1 "Bob" ⟨1, "🐱"⟩ (by decide) (by decide)
    simpa [exState] using hb

/-- C4: registering a name that is already registered silently replaces the
earlier handle with the new one (last-writer-wins, no error), the registry
keeps at most one handle per display name, and every broadcast issued after
the replacement enqueues into the new handle's queue (whenever the name is
not the excluded one) and never into the replaced handle's queue. -/
theorem C4_duplicate_name_replaces (s : ServerState) (hwf : WellFormed s)
    (name : String) (hOld hNew : ClientHandle)
    (hmem : (name, hOld) ∈ s.clients)
    (hfresh : hNew.hid ∉ s.clients.map (fun p => p.2.hid)) :
    ((name, hNew) ∈ (registerClient s name hNew).clients)
    ∧ (∀ h, (name, h) ∈ (registerClient s name hNew).clients → h = hNew)
    ∧ ((registerClient s name hNew).clients.map Prod.fst).Nodup
    ∧ (∀ sender text exclude emoji,
        (broadcast (registerClient s name hNew) sender text exclude emoji).mailboxes hOld.hid
          = (registerClient s name hNew).mailboxes hOld.hid)
    ∧ (∀ sender text exclude emoji, isExcluded exclude name = false →
        (broadcast (registerClient s name hNew) sender text exclude emoji).mailboxes hNew.hid
          = (registerClient s name hNew).mailboxes hNew.hid
            ++ [ChatMessage.mk sender text emoji]) := by
  obtain ⟨hkeys, hhids, hnames⟩ := hwf
  have hOldMemHid : hOld.hid ∈ s.clients.map (fun p => p.2.hid) :=
    List.mem_map.mpr ⟨(name, hOld), hmem, rfl⟩
  have hNe : hNew.hid ≠ hOld.hid := fun he => hfresh (he ▸ hOldMemHid)
  have hclients : (registerClient s name hNew).clients = dictSet s.clients name hNew := rfl
  have hnewmem : (name, hNew) ∈ dictSet s.clients name hNew :=
    dictSet_mem s.clients name hNew hOld hmem
  have hhidsNew : ((dictSet s.clients name hNew).map (fun p => p.2.hid)).Nodup := by
    rw [dictSet_eq_map_of_mem s.clients name hNew hOld hmem]
    exact dictSet_hids_nodup name hNew s.clients hkeys hhids hfresh
  refine ⟨hnewmem, ?_, ?_, ?_, ?_⟩
  · intro h hm
    exact dictSet_unique s.clients name hNew h hm
  · rw [hclients, dictSet_keys_of_mem s.clients name hNew hOld hmem]
    exact hkeys
  · intro sender text exclude emoji
    apply broadcast_mailbox_of_not_mem
    rw [hclients]
    exact dictSet_old_hid_not_mem s.clients name hNew hOld hmem hhids hNe
  · intro sender text exclude emoji hex
    rw [broadcast_mailbox_of_mem (registerClient s name hNew) hhidsNew sender text emoji
        exclude name hNew hnewmem]
    rw [hex]
    simp

theorem C4_duplicate_name_replaces_witness :
    ("Bob", (⟨2, "🦊"⟩ : ClientHandle)) ∈ (registerClient exState "Bob" ⟨2, "🦊"⟩).clients
    ∧ (broadcast (registerClient exState "Bob" ⟨2, "🦊"⟩) "SERVER" "ping" none "").mailboxes 1
        = []
    ∧ (broadcast (registerClient exState "Bob" ⟨2, "🦊"⟩) "SERVER" "ping" none "").mailboxes 2
        = [ChatMessage.mk "SERVER" "ping" ""] := by
  have h := C4_duplicate_name_replaces exState (by decide) "Bob" ⟨1, "🐱"⟩ ⟨2, "🦊"⟩
      (by decide) (by decide)
  refine ⟨h.1, ?_, ?_⟩
  · have hold := h.2.2.2.1 "SERVER" "ping" none ""
    simpa [exState, registerClient] using hold
  · have hnew := h.2.2.2.2 "SERVER" "ping" none "" (by decide)
    simpa [exState, registerClient] using hnew

set_option maxRecDepth 8000 in
theorem parseDecimal_repr_lt : ∀ n, n < 1000 → parseDecimal (Nat.repr n) = n := by
  decide

/-- C8 counterexample: the fallback display name is
`"User_" ++ repr (id(context) % 1000)`, so the two distinct connection
identities 17 and 1017 receive the SAME generated fallback name: the
fallback is not unique to the connection. -/
theorem C8_counterexample :
    fallbackName 17 = fallbackName 1017 ∧ (17 : Nat) ≠ 1017 := by
  decide

/-- C8 amended: the generated fallback names of two connections coincide
exactly when the connection identities are congruent modulo 1000; hence
fallback names are distinct only for identities differing mod 1000, not
for every pair of distinct connections. -/
theorem C8_fallback_mod_1000 (a b : Nat) :
    fallbackName a = fallbackName b ↔ a % 1000 = b % 1000 := by
  constructor
  · intro h
    have hd : ("User_" ++ Nat.repr (a % 1000)).data
        = ("User_" ++ Nat.repr (b % 1000)).data := congrArg String.data h
    have hd2 : "User_".data ++ (Nat.repr (a % 1000)).data
        = "User_".data ++ (Nat.repr (b % 1000)).data := by
      simpa using hd
    have hd3 := List.append_cancel_left hd2
    have hrepr : Nat.repr (a % 1000) = Nat.repr (b % 1000) := congrArg String.mk hd3
    have hp := congrArg parseDecimal hrepr
    rwa [parseDecimal_repr_lt (a % 1000) (Nat.mod_lt a (by norm_num)),
         parseDecimal_repr_lt (b % 1000) (Nat.mod_lt b (by norm_num))] at hp
  · intro h
    simp [fallbackName, h]

theorem C8_fallback_mod_1000_witness : fallbackName 3 = fallbackName 2003 :=
  (C8_fallback_mod_1000 3 2003).mpr (by decide)

/-- C9: when a session's teardown is triggered while both its read worker
and its write worker run their cleanup paths (a read error plus an external
shutdown detected independently), every interleaving of the two workers'
cleanup operation traces contains exactly one leave broadcast and exactly
one registry removal: the teardown operations exist only in the read
worker's finally block, which runs once, while the write worker's cleanup
only joins the reader thread. -/
theorem C9_single_teardown (sess : SessionState) (name : String)
    (hsess : sess.username = some name) (hne : name ≠ "")
    (t : List SessionOp)
    (hint : Interleaving (readCleanupTrace sess) writeCleanupTrace t) :
    t.countP isLeaveOp = 1 ∧ t.countP isUnregisterOp = 1 := by
  have htrace : readCleanupTrace sess
      = [SessionOp.broadcastLeave name, SessionOp.unregister name] := by
    simp [readCleanupTrace, hsess, pyFalsyName, hne]
  rw [htrace] at hint
  constructor
  · rw [countP_interleaving isLeaveOp hint]
    simp [writeCleanupTrace, List.countP_cons, isLeaveOp]
  · rw [countP_interleaving isUnregisterOp hint]
    simp [writeCleanupTrace, List.countP_cons, isUnregisterOp]

theorem C9_single_teardown_witness :
    ([SessionOp.broadcastLeave "Bob", SessionOp.unregister "Bob",
      SessionOp.joinReader].countP isLeaveOp = 1)
    ∧ ([SessionOp.broadcastLeave "Bob", SessionOp.unregister "Bob",
        SessionOp.joinReader].countP isUnregisterOp = 1) := by
  have htrace : readCleanupTrace ⟨some "Bob", "🐱"⟩
      = [SessionOp.broadcastLeave "Bob", SessionOp.unregister "Bob"] := by decide
  have hint : Interleaving (readCleanupTrace ⟨some "Bob", "🐱"⟩) writeCleanupTrace
      [SessionOp.broadcastLeave "Bob", SessionOp.unregister "Bob", SessionOp.joinReader] := by
    rw [htrace]
    exact Interleaving.left (Interleaving.left (Interleaving.right Interleaving.nil))
  exact C9_single_teardown ⟨some "Bob", "🐱"⟩ "Bob" rfl (by decide) _ hint
